import Mathlib

/-!
Verification of the Casa Wonders listing/booking data layer
(`src/lib/api.ts`), shallowly embedded in Lean 4.

JavaScript numbers are modelled as `ℚ` where the code only compares and
multiplies them (prices, ratings, coordinates as stored data), and as `ℝ`
inside the trigonometric haversine distance `calculateDistance`.  The
global in-memory store (`mockListings`, `mockUser` from `mockData.ts`) is
passed explicitly as state; `Date.now()` is an explicit `now : ℕ`
parameter.  JavaScript string operations `toLowerCase` / `includes` are
modelled character-wise on `String.data`, with `toLowerCase` the Unicode
simple lowercase mapping over the character ranges the listing text and
queries use (Basic Latin, Latin-1 Supplement, `Œ`, `Ÿ`).
-/

/-- Listing category union type `"restaurant" | "event" | "cultural"`. -/
inductive Category where
  | restaurant
  | event
  | cultural
deriving DecidableEq, Repr

/-- A listing's stored location (only `lat`/`lng` reach the core logic). -/
structure LocationData where
  lat : ℚ
  lng : ℚ
deriving DecidableEq, Repr

/-- The fields of `Listing` (from `mockData.ts` usage in `api.ts`) that the
data layer reads: identity, category, the four searchable text fields,
price, rating and coordinates. -/
structure Listing where
  id : String
  category : Category
  title : String
  titleFr : String
  description : String
  descriptionFr : String
  price : ℚ
  rating : ℚ
  location : LocationData
deriving DecidableEq, Repr

/-- Booking status union `"pending" | "confirmed" | "cancelled"`. -/
inductive BookingStatus where
  | pending
  | confirmed
  | cancelled
deriving DecidableEq, Repr

/-- The `Booking` record. -/
structure Booking where
  id : String
  listingId : String
  date : String
  time : String
  participants : ℕ
  status : BookingStatus
  totalPrice : ℚ
  createdAt : String
deriving DecidableEq, Repr

/-- `Omit<Booking, "id" | "createdAt">`: the payload the caller passes to
`createBooking` (note it already carries `totalPrice`). -/
structure BookingInput where
  listingId : String
  date : String
  time : String
  participants : ℕ
  status : BookingStatus
  totalPrice : ℚ
deriving DecidableEq, Repr

/-- The geospatial part of `ListingFilters.location`. -/
structure LocationFilter where
  lat : ℚ
  lng : ℚ
  radius : ℚ
deriving DecidableEq, Repr

/-- `ListingFilters`: every field optional, as in the TypeScript interface. -/
structure ListingFilters where
  category : Option Category := none
  minPrice : Option ℚ := none
  maxPrice : Option ℚ := none
  minRating : Option ℚ := none
  date : Option String := none
  location : Option LocationFilter := none
deriving DecidableEq, Repr

/-- `PaginatedResponse<T>` returned by `getListings`. -/
structure PaginatedResponse (α : Type) where
  data : List α
  total : ℕ
  page : ℕ
  limit : ℕ
  hasMore : Bool
deriving DecidableEq, Repr

/-- The mutable fields of `mockUser` the data layer touches. -/
structure UserState where
  wishlist : List String
  bookings : List Booking
deriving DecidableEq, Repr

/-- One character of JavaScript `toLowerCase`: the Unicode simple
lowercase mapping, implemented over the character ranges the repository's
English/French listing text and queries use — Basic Latin `A`–`Z` and the
Latin-1 Supplement uppercase letters `À`–`Þ` (excluding the
multiplication sign `×`) all map by `+32`, and the French `Œ`/`Ÿ` map to
`œ`/`ÿ`; every other character maps to itself, as in the Unicode default
case conversion for lowercase letters, digits and punctuation. -/
def charLower (c : Char) : Char :=
  if 'A' ≤ c ∧ c ≤ 'Z' then Char.ofNat (c.toNat + 32)
  else if 'À' ≤ c ∧ c ≤ 'Þ' ∧ c ≠ '×' then Char.ofNat (c.toNat + 32)
  else if c = 'Œ' then 'œ'
  else if c = 'Ÿ' then 'ÿ'
  else c

/-- JavaScript `String.prototype.toLowerCase`, character-wise. -/
def strToLower (s : String) : String := ⟨s.data.map charLower⟩

/-- Whether `pat` occurs at the start of `s` (character lists). -/
def listStartsWith : List Char → List Char → Bool
  | _, [] => true
  | [], _ :: _ => false
  | a :: as, b :: bs => a == b && listStartsWith as bs

/-- Whether `pat` occurs contiguously anywhere in `s` (character lists). -/
def listIncludes : List Char → List Char → Bool
  | [], pat => listStartsWith [] pat
  | a :: as, pat => listStartsWith (a :: as) pat || listIncludes as pat

/-- JavaScript `String.prototype.includes sub` on `s`. -/
def strIncludes (s sub : String) : Bool := listIncludes s.data sub.data

/-- `searchListings(query)` from `api.ts`: lower-case the query, keep the
listings one of whose four text fields, lower-cased, includes it. -/
def searchListings (mockListings : List Listing) (query : String) :
    List Listing :=
  let lowercaseQuery := strToLower query
  mockListings.filter (fun listing =>
    strIncludes (strToLower listing.title) lowercaseQuery ||
    strIncludes (strToLower listing.titleFr) lowercaseQuery ||
    strIncludes (strToLower listing.description) lowercaseQuery ||
    strIncludes (strToLower listing.descriptionFr) lowercaseQuery)

/-- `addToWishlist(listingId)` from `api.ts`: push unless already included. -/
def addToWishlist (listingId : String) (wishlist : List String) :
    List String :=
  if wishlist.contains listingId then wishlist else wishlist ++ [listingId]

/-- `removeFromWishlist(listingId)` from `api.ts`: filter out the id. -/
def removeFromWishlist (listingId : String) (wishlist : List String) :
    List String :=
  wishlist.filter (fun id => id != listingId)

/-- `createBooking(booking)` from `api.ts`: build the record by spreading
the payload and adding `id = "booking-" + Date.now()` and a creation
timestamp, push it onto the user's bookings, return it.  `now` stands for
`Date.now()`; `createdAt` abstracts `new Date().toISOString()` as the
serialized clock value. -/
def createBooking (now : ℕ) (booking : BookingInput) (u : UserState) :
    Booking × UserState :=
  let newBooking : Booking :=
    { id := "booking-" ++ toString now
      listingId := booking.listingId
      date := booking.date
      time := booking.time
      participants := booking.participants
      status := booking.status
      totalPrice := booking.totalPrice
      createdAt := toString now }
  (newBooking, { u with bookings := u.bookings ++ [newBooking] })

/-- `cancelBooking(bookingId)` from `api.ts`: `find` the first booking with
that id and set its status to cancelled; otherwise do nothing. -/
def cancelBooking (bookingId : String) : List Booking → List Booking
  | [] => []
  | b :: bs =>
    if b.id == bookingId then { b with status := .cancelled } :: bs
    else b :: cancelBooking bookingId bs

/-- `deg2rad(deg)` from `api.ts`: `deg * (Math.PI / 180)`. -/
noncomputable def deg2rad (deg : ℝ) : ℝ := deg * (Real.pi / 180)

/-- JavaScript `Math.atan2(y, x)`, in its standard piecewise definition
(`Math.atan2(0, 0) = 0`). -/
noncomputable def atan2 (y x : ℝ) : ℝ :=
  if 0 < x then Real.arctan (y / x)
  else if x < 0 ∧ 0 ≤ y then Real.arctan (y / x) + Real.pi
  else if x < 0 ∧ y < 0 then Real.arctan (y / x) - Real.pi
  else if x = 0 ∧ 0 < y then Real.pi / 2
  else if x = 0 ∧ y < 0 then -(Real.pi / 2)
  else 0

/-- `calculateDistance(lat1, lon1, lat2, lon2)` from `api.ts`: haversine
great-circle distance in kilometers with Earth radius `R = 6371`. -/
noncomputable def calculateDistance (lat1 lon1 lat2 lon2 : ℝ) : ℝ :=
  let R : ℝ := 6371
  let dLat := deg2rad (lat2 - lat1)
  let dLon := deg2rad (lon2 - lon1)
  let a :=
    Real.sin (dLat / 2) * Real.sin (dLat / 2) +
      Real.cos (deg2rad lat1) * Real.cos (deg2rad lat2) *
        Real.sin (dLon / 2) * Real.sin (dLon / 2)
  let c := 2 * atan2 (Real.sqrt a) (Real.sqrt (1 - a))
  R * c

/-- `if (filters.category) { filter(listing.category === filters.category) }`.
A present `category` value (one of three non-empty string literals) is
always truthy. -/
def filterCategory (o : Option Category) (ls : List Listing) : List Listing :=
  match o with
  | none => ls
  | some c => ls.filter (fun listing => decide (listing.category = c))

/-- `if (filters.minPrice) { filter(listing.price >= filters.minPrice) }`.
JavaScript truthiness: the guard is skipped both when `minPrice` is
`undefined` and when it is `0`. -/
def filterMinPrice (o : Option ℚ) (ls : List Listing) : List Listing :=
  match o with
  | none => ls
  | some v =>
    if v = 0 then ls
    else ls.filter (fun listing => decide (v ≤ listing.price))

/-- `if (filters.maxPrice) { filter(listing.price <= filters.maxPrice) }`,
with the same truthiness guard (`0` is skipped). -/
def filterMaxPrice (o : Option ℚ) (ls : List Listing) : List Listing :=
  match o with
  | none => ls
  | some v =>
    if v = 0 then ls
    else ls.filter (fun listing => decide (listing.price ≤ v))

/-- `if (filters.minRating) { filter(listing.rating >= filters.minRating) }`,
with the same truthiness guard (`0` is skipped). -/
def filterMinRating (o : Option ℚ) (ls : List Listing) : List Listing :=
  match o with
  | none => ls
  | some v =>
    if v = 0 then ls
    else ls.filter (fun listing => decide (v ≤ listing.rating))

/-- `if (filters.location) { filter(calculateDistance(...) <= radius) }`.
A present location object is always truthy. -/
noncomputable def filterLocation (o : Option LocationFilter)
    (ls : List Listing) : List Listing :=
  match o with
  | none => ls
  | some loc =>
    ls.filter (fun listing =>
      decide (calculateDistance (loc.lat : ℝ) (loc.lng : ℝ)
          (listing.location.lat : ℝ) (listing.location.lng : ℝ) ≤
        (loc.radius : ℝ)))

/-- The successive `filteredListings` reassignments of `getListings` in
`api.ts`: category, then minPrice, then maxPrice, then minRating, then
the geospatial radius filter, each guarded by JavaScript truthiness of
the corresponding optional field. -/
noncomputable def applyFilters (catalog : List Listing)
    (filters : ListingFilters) : List Listing :=
  filterLocation filters.location
    (filterMinRating filters.minRating
      (filterMaxPrice filters.maxPrice
        (filterMinPrice filters.minPrice
          (filterCategory filters.category catalog))))

/-- The `filteredListings` value of `getListings`: the catalog copy when no
filters object is passed, the filter block's output otherwise. -/
noncomputable def filteredOf (mockListings : List Listing)
    (filters : Option ListingFilters) : List Listing :=
  match filters with
  | none => mockListings
  | some f => applyFilters mockListings f

/-- `getListings(filters?, page = 1, limit = 10)` from `api.ts`: filter,
then return the slice `[(page-1)*limit, (page-1)*limit + limit)` with
`total`, the echoed `page`/`limit`, and `hasMore = endIndex < total`. -/
noncomputable def getListings (mockListings : List Listing)
    (filters : Option ListingFilters) (page limit : ℕ) :
    PaginatedResponse Listing :=
  let filteredListings := filteredOf mockListings filters
  let startIndex := (page - 1) * limit
  let endIndex := startIndex + limit
  { data := (filteredListings.drop startIndex).take limit
    total := filteredListings.length
    page := page
    limit := limit
    hasMore := decide (endIndex < filteredListings.length) }

/-- Wishlist operations, for sequencing `addToWishlist` /
`removeFromWishlist` calls. -/
inductive WishlistOp where
  | add (listingId : String)
  | remove (listingId : String)
deriving DecidableEq, Repr

/-- Run one wishlist operation. -/
def applyWishlistOp (op : WishlistOp) (wishlist : List String) :
    List String :=
  match op with
  | .add listingId => addToWishlist listingId wishlist
  | .remove listingId => removeFromWishlist listingId wishlist

/-- Run a sequence of wishlist operations, first element first. -/
def applyWishlistOps (ops : List WishlistOp) (wishlist : List String) :
    List String :=
  ops.foldl (fun w op => applyWishlistOp op w) wishlist

/-- Whole-store state: the listing catalog (`mockListings`) plus the user
(`mockUser`'s wishlist and bookings). -/
structure AppState where
  mockListings : List Listing
  user : UserState
deriving DecidableEq, Repr

/-- The state-mutating operations of the data layer, plus `setPrice`.
`setPrice` is Modelled from the spec: the hypothetical external
listing-price change of the price-freeze property ("creating a booking,
then hypothetically changing the listing's price") — no function in
`api.ts` mutates a listing, so the hypothetical is embedded as a catalog
map rewriting the matching listing's price. -/
inductive StoreOp where
  | create (now : ℕ) (input : BookingInput)
  | cancel (bookingId : String)
  | wishAdd (listingId : String)
  | wishRemove (listingId : String)
  | setPrice (listingId : String) (newPrice : ℚ)
deriving DecidableEq, Repr

/-- Run one store operation. -/
def applyStoreOp (op : StoreOp) (s : AppState) : AppState :=
  match op with
  | .create now input => { s with user := (createBooking now input s.user).2 }
  | .cancel bookingId =>
    { s with user :=
        { s.user with bookings := cancelBooking bookingId s.user.bookings } }
  | .wishAdd listingId =>
    { s with user :=
        { s.user with wishlist := addToWishlist listingId s.user.wishlist } }
  | .wishRemove listingId =>
    { s with user :=
        { s.user with wishlist := removeFromWishlist listingId s.user.wishlist } }
  | .setPrice listingId newPrice =>
    { s with mockListings :=
        s.mockListings.map (fun l =>
          if l.id = listingId then { l with price := newPrice } else l) }

/-- Run a sequence of store operations, first element first. -/
def applyStoreOps (ops : List StoreOp) (s : AppState) : AppState :=
  ops.foldl (fun t op => applyStoreOp op t) s

/-! ### Sample data for concrete witnesses -/

/-- A concrete restaurant listing used by the witnesses. -/
def wl0 : Listing :=
  { id := "l-0", category := .restaurant, title := "Cafe One",
    titleFr := "Cafe Un", description := "a cafe", descriptionFr := "un cafe",
    price := 100, rating := 4, location := { lat := 33, lng := -7 } }

/-- A concrete listing with accented French text, for the search witness. -/
def wl1 : Listing :=
  { id := "l-1", category := .cultural, title := "Cafe Two",
    titleFr := "Le café deux", description := "a place",
    descriptionFr := "un lieu", price := 80, rating := 5,
    location := { lat := 33, lng := -7 } }

/-- A concrete confirmed booking used by the witnesses. -/
def wb1 : Booking :=
  { id := "b-1", listingId := "l-0", date := "2025-06-01", time := "14:00",
    participants := 2, status := .confirmed, totalPrice := 200,
    createdAt := "1700000000000" }

/-! ### Wishlist lemmas -/

/-- Inserting an id already present leaves the wishlist unchanged. -/
theorem addToWishlist_of_contains (listingId : String)
    (wishlist : List String) (h : wishlist.contains listingId = true) :
    addToWishlist listingId wishlist = wishlist := by
  have hm : listingId ∈ wishlist := by simpa using h
  simp [addToWishlist, hm]

/-- After one insert the id is present. -/
theorem contains_addToWishlist (listingId : String)
    (wishlist : List String) :
    (addToWishlist listingId wishlist).contains listingId = true := by
  by_cases h : listingId ∈ wishlist
  · simp [addToWishlist, h]
  · simp [addToWishlist, h]

/-- `addToWishlist` preserves the no-duplicates invariant. -/
theorem addToWishlist_nodup (listingId : String) (wishlist : List String)
    (h : wishlist.Nodup) : (addToWishlist listingId wishlist).Nodup := by
  by_cases hc : listingId ∈ wishlist
  · simpa [addToWishlist, hc] using h
  · simp [addToWishlist, hc, List.nodup_append, h]

/-- `removeFromWishlist` preserves the no-duplicates invariant. -/
theorem removeFromWishlist_nodup (listingId : String)
    (wishlist : List String) (h : wishlist.Nodup) :
    (removeFromWishlist listingId wishlist).Nodup :=
  h.filter _

/-- C7: `addToWishlist` twice equals once (the second insert sees the id
already included and is the identity), and `removeFromWishlist` of an
absent id filters nothing out. -/
theorem wishlist_idempotent (listingId : String) (wishlist : List String) :
    addToWishlist listingId (addToWishlist listingId wishlist) =
      addToWishlist listingId wishlist ∧
    (listingId ∉ wishlist →
      removeFromWishlist listingId wishlist = wishlist) := by
  constructor
  · exact addToWishlist_of_contains _ _ (contains_addToWishlist _ _)
  · intro h
    rw [removeFromWishlist, List.filter_eq_self]
    intro a ha
    simp only [bne_iff_ne, ne_eq]
    exact fun heq => h (heq ▸ ha)

/-- C7 witness: double insert of `"l-0"` into the empty wishlist collapses
to a single insert, and removing the absent `"l-9"` from `["l-0"]` is the
identity. -/
theorem wishlist_idempotent_witness :
    ("l-9" ∉ ["l-0"]) ∧
    addToWishlist "l-0" (addToWishlist "l-0" []) = addToWishlist "l-0" [] ∧
    removeFromWishlist "l-9" ["l-0"] = ["l-0"] :=
  ⟨by decide, (wishlist_idempotent "l-0" []).1,
    (wishlist_idempotent "l-9" ["l-0"]).2 (by decide)⟩

/-- C10: every sequence of wishlist operations preserves the
no-duplicates invariant. -/
theorem wishlist_nodup_invariant (ops : List WishlistOp)
    (wishlist : List String) (h : wishlist.Nodup) :
    (applyWishlistOps ops wishlist).Nodup := by
  induction ops generalizing wishlist with
  | nil => exact h
  | cons op rest ih =>
    rw [applyWishlistOps, List.foldl_cons]
    cases op with
    | add listingId => exact ih _ (addToWishlist_nodup listingId _ h)
    | remove listingId => exact ih _ (removeFromWishlist_nodup listingId _ h)

/-- C10 witness: a concrete operation sequence on the empty (duplicate-free)
wishlist keeps it duplicate-free. -/
theorem wishlist_nodup_invariant_witness :
    ([] : List String).Nodup ∧
    (applyWishlistOps
        [.add "l-0", .add "l-0", .add "l-1", .remove "l-9"] []).Nodup :=
  ⟨by decide,
    wishlist_nodup_invariant [.add "l-0", .add "l-0", .add "l-1", .remove "l-9"]
      [] (by decide)⟩

/-! ### Booking-cancellation lemmas -/

/-- When no booking carries the id, `cancelBooking` is the identity. -/
theorem cancelBooking_not_found (bookingId : String) (bs : List Booking)
    (h : ∀ b ∈ bs, b.id ≠ bookingId) : cancelBooking bookingId bs = bs := by
  induction bs with
  | nil => rfl
  | cons b rest ih =>
    have hb : ¬(b.id == bookingId) = true := by
      simpa using h b (List.mem_cons_self b rest)
    rw [cancelBooking, if_neg hb, ih (fun x hx => h x (List.mem_cons_of_mem b hx))]

/-- `cancelBooking` is idempotent. -/
theorem cancelBooking_idem (bookingId : String) (bs : List Booking) :
    cancelBooking bookingId (cancelBooking bookingId bs) =
      cancelBooking bookingId bs := by
  induction bs with
  | nil => rfl
  | cons b rest ih =>
    by_cases hb : (b.id == bookingId) = true
    · rw [cancelBooking, if_pos hb, cancelBooking, if_pos hb]
    · rw [cancelBooking, if_neg hb, cancelBooking, if_neg hb, ih]

/-- `cancelBooking` keeps every booking in place: the id sequence is
unchanged (in particular no booking is removed). -/
theorem cancelBooking_map_id (bookingId : String) (bs : List Booking) :
    (cancelBooking bookingId bs).map Booking.id = bs.map Booking.id := by
  induction bs with
  | nil => rfl
  | cons b rest ih =>
    by_cases hb : (b.id == bookingId) = true
    · rw [cancelBooking, if_pos hb]
      simp
    · rw [cancelBooking, if_neg hb]
      simp [ih]

/-- The first booking carrying the id has its status set to cancelled. -/
theorem cancelBooking_found (bookingId : String) (bs : List Booking)
    (i : ℕ) (b : Booking) (hget : bs[i]? = some b) (hid : b.id = bookingId)
    (hfirst : ∀ j c, j < i → bs[j]? = some c → c.id ≠ bookingId) :
    (cancelBooking bookingId bs)[i]? =
      some { b with status := BookingStatus.cancelled } := by
  induction bs generalizing i with
  | nil => simp at hget
  | cons a rest ih =>
    cases i with
    | zero =>
      have ha : a = b := by simpa using hget
      subst ha
      have hb : (a.id == bookingId) = true := by simpa using hid
      rw [cancelBooking, if_pos hb]
      simp
    | succ n =>
      have ha : a.id ≠ bookingId := hfirst 0 a (Nat.succ_pos n) (by simp)
      have hb : ¬(a.id == bookingId) = true := by simpa using ha
      rw [cancelBooking, if_neg hb]
      simp only [List.getElem?_cons_succ]
      exact ih n (by simpa using hget)
        (fun j c hj hc => hfirst (j + 1) c (Nat.succ_lt_succ hj) (by simpa using hc))

/-- C5: `cancelBooking(id)` is a silent no-op when the id is absent;
otherwise the first booking with that id becomes cancelled (so a
confirmed booking yields cancelled); a second call changes nothing
(idempotent); and the booking id sequence — hence membership — is
preserved, so cancellation never removes a booking. -/
theorem cancelBooking_spec (bookingId : String) (bs : List Booking) :
    ((∀ b ∈ bs, b.id ≠ bookingId) → cancelBooking bookingId bs = bs) ∧
    cancelBooking bookingId (cancelBooking bookingId bs) =
      cancelBooking bookingId bs ∧
    (cancelBooking bookingId bs).map Booking.id = bs.map Booking.id ∧
    (∀ (i : ℕ) (b : Booking), bs[i]? = some b → b.id = bookingId →
      (∀ (j : ℕ) (c : Booking), j < i → bs[j]? = some c → c.id ≠ bookingId) →
      (cancelBooking bookingId bs)[i]? =
        some { b with status := BookingStatus.cancelled }) :=
  ⟨cancelBooking_not_found bookingId bs,
   cancelBooking_idem bookingId bs,
   cancelBooking_map_id bookingId bs,
   fun i b hget hid hfirst =>
     cancelBooking_found bookingId bs i b hget hid hfirst⟩

/-- C5 witness: cancelling the absent id `"b-9"` on `[wb1]` changes
nothing, and cancelling `"b-1"` flips the confirmed `wb1` to cancelled. -/
theorem cancelBooking_spec_witness :
    cancelBooking "b-9" [wb1] = [wb1] ∧
    (cancelBooking "b-1" [wb1])[0]? =
      some { wb1 with status := BookingStatus.cancelled } :=
  ⟨(cancelBooking_spec "b-9" [wb1]).1 (by decide),
   (cancelBooking_spec "b-1" [wb1]).2.2.2 0 wb1 (by decide) (by decide)
     (fun j c hj _ => absurd hj (Nat.not_lt_zero j))⟩

/-! ### Booking creation -/

/-- C1 (amended): `createBooking` performs no validation and no listing
lookup: on every payload — participants ≥ 1 or not — it returns a booking
carrying the payload's fields verbatim (in particular the caller-supplied
`totalPrice`), with id `"booking-" + Date.now()` and the creation
timestamp, and appends exactly that booking to the user's bookings. -/
theorem createBooking_spec (now : ℕ) (input : BookingInput) (u : UserState) :
    ((createBooking now input u).1.listingId = input.listingId ∧
     (createBooking now input u).1.date = input.date ∧
     (createBooking now input u).1.time = input.time ∧
     (createBooking now input u).1.participants = input.participants ∧
     (createBooking now input u).1.status = input.status ∧
     (createBooking now input u).1.totalPrice = input.totalPrice) ∧
    (createBooking now input u).1.id = "booking-" ++ toString now ∧
    (createBooking now input u).1.createdAt = toString now ∧
    (createBooking now input u).2.bookings =
      u.bookings ++ [(createBooking now input u).1] ∧
    (createBooking now input u).2.wishlist = u.wishlist :=
  ⟨⟨rfl, rfl, rfl, rfl, rfl, rfl⟩, rfl, rfl, rfl, rfl⟩

/-- A payload with zero participants and a `totalPrice` that cannot be any
listing price times zero participants. -/
def cbInput0 : BookingInput :=
  { listingId := "l-0", date := "2025-06-01", time := "14:00",
    participants := 0, status := .confirmed, totalPrice := 999 }

/-- The empty user state. -/
def cbUser0 : UserState := { wishlist := [], bookings := [] }

/-- C1 counterexample: with `participants = 0` (violating participants ≥ 1)
`createBooking` does not fail with any error — it appends a booking and
returns it — and the returned `totalPrice` is the caller-supplied `999`,
not `listing.price × participants` (which is `0` for every price, since
`participants = 0`): no listing lookup or validation happens. -/
theorem createBooking_claim_false :
    cbInput0.participants = 0 ∧
    (createBooking 17 cbInput0 cbUser0).2.bookings.length =
      cbUser0.bookings.length + 1 ∧
    (createBooking 17 cbInput0 cbUser0).1.totalPrice = 999 ∧
    ¬(createBooking 17 cbInput0 cbUser0).1.totalPrice = 0 := by
  refine ⟨rfl, rfl, rfl, ?_⟩
  decide

/-! ### Price freeze across operations -/

/-- One `cancelBooking` step preserves each position's id and totalPrice. -/
theorem cancelBooking_preserves_idPrice (bookingId : String)
    (bs : List Booking) (i : ℕ) (b : Booking) (h : bs[i]? = some b) :
    ∃ b', (cancelBooking bookingId bs)[i]? = some b' ∧
      b'.id = b.id ∧ b'.totalPrice = b.totalPrice := by
  induction bs generalizing i with
  | nil => simp at h
  | cons a rest ih =>
    cases i with
    | zero =>
      have ha : a = b := by simpa using h
      subst ha
      by_cases hb : (a.id == bookingId) = true
      · rw [cancelBooking, if_pos hb]
        exact ⟨{ a with status := .cancelled }, by simp, rfl, rfl⟩
      · rw [cancelBooking, if_neg hb]
        exact ⟨a, by simp, rfl, rfl⟩
    | succ n =>
      by_cases hb : (a.id == bookingId) = true
      · rw [cancelBooking, if_pos hb]
        exact ⟨b, by simpa using h, rfl, rfl⟩
      · rw [cancelBooking, if_neg hb]
        obtain ⟨b', hb', hid, hp⟩ := ih n (by simpa using h)
        exact ⟨b', by simpa using hb', hid, hp⟩

/-- Any single store operation preserves each existing position's booking
id and totalPrice. -/
theorem applyStoreOp_preserves_idPrice (op : StoreOp) (s : AppState)
    (i : ℕ) (b : Booking) (h : s.user.bookings[i]? = some b) :
    ∃ b', (applyStoreOp op s).user.bookings[i]? = some b' ∧
      b'.id = b.id ∧ b'.totalPrice = b.totalPrice := by
  cases op with
  | create now input =>
    refine ⟨b, ?_, rfl, rfl⟩
    have hi : i < s.user.bookings.length :=
      (List.getElem?_eq_some.mp h).1
    simpa [applyStoreOp, createBooking, List.getElem?_append_left hi] using h
  | cancel bookingId =>
    simpa [applyStoreOp] using
      cancelBooking_preserves_idPrice bookingId s.user.bookings i b h
  | wishAdd listingId => exact ⟨b, h, rfl, rfl⟩
  | wishRemove listingId => exact ⟨b, h, rfl, rfl⟩
  | setPrice listingId newPrice => exact ⟨b, h, rfl, rfl⟩

/-- C6: a booking's id and totalPrice are frozen at creation — after any
sequence of store operations (further creations, cancellations, wishlist
changes, and the hypothetical listing-price change `setPrice`), the
booking at each existing position still has its original id and
totalPrice. -/
theorem totalPrice_frozen (ops : List StoreOp) (s : AppState)
    (i : ℕ) (b : Booking) (h : s.user.bookings[i]? = some b) :
    ∃ b', (applyStoreOps ops s).user.bookings[i]? = some b' ∧
      b'.id = b.id ∧ b'.totalPrice = b.totalPrice := by
  induction ops generalizing s b with
  | nil => exact ⟨b, h, rfl, rfl⟩
  | cons op rest ih =>
    obtain ⟨b1, hb1, hid1, hp1⟩ := applyStoreOp_preserves_idPrice op s i b h
    obtain ⟨b2, hb2, hid2, hp2⟩ := ih (applyStoreOp op s) b1 hb1
    exact ⟨b2, hb2, hid2.trans hid1, hp2.trans hp1⟩

/-- C6 witness: after cancelling `wb1` and changing listing `"l-0"`'s
price to `7`, the booking at position 0 keeps id `"b-1"` and
totalPrice `200`. -/
theorem totalPrice_frozen_witness :
    ({ mockListings := [wl0], user := { wishlist := [], bookings := [wb1] } } :
        AppState).user.bookings[0]? = some wb1 ∧
    ∃ b', (applyStoreOps [.cancel "b-1", .setPrice "l-0" 7]
        { mockListings := [wl0],
          user := { wishlist := [], bookings := [wb1] } }).user.bookings[0]? =
        some b' ∧ b'.id = wb1.id ∧ b'.totalPrice = wb1.totalPrice :=
  ⟨rfl,
   totalPrice_frozen [.cancel "b-1", .setPrice "l-0" 7]
     { mockListings := [wl0], user := { wishlist := [], bookings := [wb1] } }
     0 wb1 rfl⟩

/-! ### Search -/

/-- The empty pattern occurs at the start of any character list. -/
theorem listStartsWith_nil (s : List Char) : listStartsWith s [] = true := by
  cases s <;> rfl

/-- The empty pattern occurs in any character list. -/
theorem listIncludes_nil (s : List Char) : listIncludes s [] = true := by
  cases s <;> simp [listIncludes, listStartsWith_nil]

/-- Lower-casing the empty string gives the empty string. -/
theorem strToLower_empty : strToLower "" = "" := rfl

/-- Every string includes the empty string. -/
theorem strIncludes_empty (s : String) : strIncludes s "" = true :=
  listIncludes_nil s.data

/-- C4: `searchListings` returns exactly the catalog listings one of whose
four text fields contains the query under case-insensitive (lower-cased)
substring matching; the result depends on the query only through its
lower-casing, so case-variants of a query give identical results; and the
empty query matches the whole catalog. -/
theorem searchListings_spec (catalog : List Listing) (query : String) :
    (∀ l : Listing, l ∈ searchListings catalog query ↔
      l ∈ catalog ∧
        (strIncludes (strToLower l.title) (strToLower query) = true ∨
         strIncludes (strToLower l.titleFr) (strToLower query) = true ∨
         strIncludes (strToLower l.description) (strToLower query) = true ∨
         strIncludes (strToLower l.descriptionFr) (strToLower query) = true)) ∧
    (∀ query2 : String, strToLower query = strToLower query2 →
      searchListings catalog query = searchListings catalog query2) ∧
    searchListings catalog "" = catalog := by
  refine ⟨?_, ?_, ?_⟩
  · intro l
    simp [searchListings, List.mem_filter, Bool.or_eq_true, or_assoc]
  · intro q2 h
    simp only [searchListings]
    rw [h]
  · simp [searchListings, strToLower_empty, strIncludes_empty]

/-- C4 witness: on a catalog whose listing has the accented French title
`"Le café deux"`, the queries `"CAFÉ"` and `"café"` are equal after
lower-casing (`É` folds to `é`), return the same result set, and that
result is the whole catalog — the accented query really matches through
the French field; the empty query also returns the catalog. -/
theorem searchListings_spec_witness :
    strToLower "CAFÉ" = strToLower "café" ∧
    searchListings [wl1] "CAFÉ" = [wl1] ∧
    searchListings [wl1] "café" = [wl1] ∧
    searchListings [wl1] "CAFÉ" = searchListings [wl1] "café" ∧
    searchListings [wl1] "" = [wl1] :=
  ⟨by decide, by decide, by decide,
   (searchListings_spec [wl1] "CAFÉ").2.1 "café" (by decide),
   (searchListings_spec [wl1] "").2.2⟩

/-! ### Geospatial distance -/

/-- `atan2` of nonnegative arguments is nonnegative. -/
theorem atan2_nonneg (y x : ℝ) (hy : 0 ≤ y) (hx : 0 ≤ x) :
    0 ≤ atan2 y x := by
  unfold atan2
  by_cases h1 : 0 < x
  · rw [if_pos h1]
    have h0 : Real.arctan 0 ≤ Real.arctan (y / x) :=
      Real.arctan_strictMono.monotone (div_nonneg hy h1.le)
    simpa [Real.arctan_zero] using h0
  · rw [if_neg h1]
    have hx0 : x = 0 := le_antisymm (not_lt.mp h1) hx
    have h2 : ¬(x < 0 ∧ 0 ≤ y) := fun h => absurd h.1 (not_lt.mpr hx)
    have h3 : ¬(x < 0 ∧ y < 0) := fun h => absurd h.1 (not_lt.mpr hx)
    rw [if_neg h2, if_neg h3]
    by_cases h4 : x = 0 ∧ 0 < y
    · rw [if_pos h4]
      positivity
    · rw [if_neg h4]
      have h5 : ¬(x = 0 ∧ y < 0) := fun h => absurd h.2 (not_lt.mpr hy)
      rw [if_neg h5]

/-- The haversine distance is nonnegative for every pair of inputs. -/
theorem calculateDistance_nonneg (lat1 lon1 lat2 lon2 : ℝ) :
    0 ≤ calculateDistance lat1 lon1 lat2 lon2 := by
  unfold calculateDistance
  have h := atan2_nonneg
    (Real.sqrt (Real.sin (deg2rad (lat2 - lat1) / 2) *
        Real.sin (deg2rad (lat2 - lat1) / 2) +
      Real.cos (deg2rad lat1) * Real.cos (deg2rad lat2) *
        Real.sin (deg2rad (lon2 - lon1) / 2) *
        Real.sin (deg2rad (lon2 - lon1) / 2)))
    (Real.sqrt (1 - (Real.sin (deg2rad (lat2 - lat1) / 2) *
        Real.sin (deg2rad (lat2 - lat1) / 2) +
      Real.cos (deg2rad lat1) * Real.cos (deg2rad lat2) *
        Real.sin (deg2rad (lon2 - lon1) / 2) *
        Real.sin (deg2rad (lon2 - lon1) / 2))))
    (Real.sqrt_nonneg _) (Real.sqrt_nonneg _)
  positivity

/-- The haversine distance of a point to itself is exactly zero. -/
theorem calculateDistance_self (lat lon : ℝ) :
    calculateDistance lat lon lat lon = 0 := by
  unfold calculateDistance deg2rad atan2
  norm_num [Real.sin_zero, Real.sqrt_zero, Real.sqrt_one, Real.arctan_zero]

/-- C9: `calculateDistance` is nonnegative on all inputs; two points at
the same coordinates have distance exactly `0` (hence within `1e-9` km),
in particular the Casablanca center `(33.5892, -7.6125)` to itself. -/
theorem calculateDistance_spec :
    (∀ lat1 lon1 lat2 lon2 : ℝ,
      0 ≤ calculateDistance lat1 lon1 lat2 lon2) ∧
    (∀ lat lon : ℝ, calculateDistance lat lon lat lon = 0) ∧
    |calculateDistance 33.5892 (-7.6125) 33.5892 (-7.6125)| ≤ 1e-9 := by
  refine ⟨calculateDistance_nonneg, calculateDistance_self, ?_⟩
  rw [calculateDistance_self 33.5892 (-7.6125), abs_zero]
  norm_num

/-! ### Filter soundness -/

/-- Membership after the category stage. -/
theorem mem_filterCategory (o : Option Category) (ls : List Listing)
    (l : Listing) (h : l ∈ filterCategory o ls) :
    l ∈ ls ∧ ∀ c, o = some c → l.category = c := by
  cases o with
  | none => exact ⟨h, fun c hc => by cases hc⟩
  | some c =>
    rw [filterCategory] at h
    have := List.mem_filter.mp h
    exact ⟨this.1, fun c' hc' => by
      cases hc'
      exact of_decide_eq_true this.2⟩

/-- Membership after the minPrice stage (`0` is skipped by truthiness). -/
theorem mem_filterMinPrice (o : Option ℚ) (ls : List Listing)
    (l : Listing) (h : l ∈ filterMinPrice o ls) :
    l ∈ ls ∧ ∀ v, o = some v → v ≠ 0 → v ≤ l.price := by
  cases o with
  | none => exact ⟨h, fun v hv => by cases hv⟩
  | some v =>
    rw [filterMinPrice] at h
    by_cases hv : v = 0
    · rw [if_pos hv] at h
      exact ⟨h, fun v' hv' h0 => by cases hv'; exact absurd hv h0⟩
    · rw [if_neg hv] at h
      have := List.mem_filter.mp h
      exact ⟨this.1, fun v' hv' _ => by
        cases hv'
        exact of_decide_eq_true this.2⟩

/-- Membership after the maxPrice stage (`0` is skipped by truthiness). -/
theorem mem_filterMaxPrice (o : Option ℚ) (ls : List Listing)
    (l : Listing) (h : l ∈ filterMaxPrice o ls) :
    l ∈ ls ∧ ∀ v, o = some v → v ≠ 0 → l.price ≤ v := by
  cases o with
  | none => exact ⟨h, fun v hv => by cases hv⟩
  | some v =>
    rw [filterMaxPrice] at h
    by_cases hv : v = 0
    · rw [if_pos hv] at h
      exact ⟨h, fun v' hv' h0 => by cases hv'; exact absurd hv h0⟩
    · rw [if_neg hv] at h
      have := List.mem_filter.mp h
      exact ⟨this.1, fun v' hv' _ => by
        cases hv'
        exact of_decide_eq_true this.2⟩

/-- Membership after the minRating stage (`0` is skipped by truthiness). -/
theorem mem_filterMinRating (o : Option ℚ) (ls : List Listing)
    (l : Listing) (h : l ∈ filterMinRating o ls) :
    l ∈ ls ∧ ∀ v, o = some v → v ≠ 0 → v ≤ l.rating := by
  cases o with
  | none => exact ⟨h, fun v hv => by cases hv⟩
  | some v =>
    rw [filterMinRating] at h
    by_cases hv : v = 0
    · rw [if_pos hv] at h
      exact ⟨h, fun v' hv' h0 => by cases hv'; exact absurd hv h0⟩
    · rw [if_neg hv] at h
      have := List.mem_filter.mp h
      exact ⟨this.1, fun v' hv' _ => by
        cases hv'
        exact of_decide_eq_true this.2⟩

/-- Membership after the geospatial stage. -/
theorem mem_filterLocation (o : Option LocationFilter) (ls : List Listing)
    (l : Listing) (h : l ∈ filterLocation o ls) :
    l ∈ ls ∧ ∀ loc, o = some loc →
      calculateDistance (loc.lat : ℝ) (loc.lng : ℝ)
          (l.location.lat : ℝ) (l.location.lng : ℝ) ≤ (loc.radius : ℝ) := by
  cases o with
  | none => exact ⟨h, fun loc hloc => by cases hloc⟩
  | some loc =>
    rw [filterLocation] at h
    have := List.mem_filter.mp h
    exact ⟨this.1, fun loc' hloc' => by
      cases hloc'
      exact of_decide_eq_true this.2⟩

/-- Every element of a `getListings` page comes from the catalog. -/
theorem mem_applyFilters (catalog : List Listing) (filters : ListingFilters)
    (l : Listing) (h : l ∈ applyFilters catalog filters) :
    l ∈ catalog ∧
    (∀ c, filters.category = some c → l.category = c) ∧
    (∀ v, filters.minPrice = some v → v ≠ 0 → v ≤ l.price) ∧
    (∀ v, filters.maxPrice = some v → v ≠ 0 → l.price ≤ v) ∧
    (∀ v, filters.minRating = some v → v ≠ 0 → v ≤ l.rating) ∧
    (∀ loc, filters.location = some loc →
      calculateDistance (loc.lat : ℝ) (loc.lng : ℝ)
          (l.location.lat : ℝ) (l.location.lng : ℝ) ≤ (loc.radius : ℝ)) := by
  rw [applyFilters] at h
  obtain ⟨h4, hloc⟩ := mem_filterLocation _ _ _ h
  obtain ⟨h3, hrat⟩ := mem_filterMinRating _ _ _ h4
  obtain ⟨h2, hmax⟩ := mem_filterMaxPrice _ _ _ h3
  obtain ⟨h1, hmin⟩ := mem_filterMinPrice _ _ _ h2
  obtain ⟨h0, hcat⟩ := mem_filterCategory _ _ _ h1
  exact ⟨h0, hcat, hmin, hmax, hrat, hloc⟩

/-- C2 (amended): every listing in a `getListings` page is drawn from the
catalog and satisfies every predicate whose filter field is specified
with a truthy value — category equality, `minPrice ≤ price`,
`price ≤ maxPrice`, `rating ≥ minRating` (each of the three numeric
bounds only when the bound is non-zero, since a `0` bound is falsy in
JavaScript and its guard is skipped), and haversine distance to the
reference point at most the radius. -/
theorem getListings_filters_sound (catalog : List Listing)
    (filters : ListingFilters) (page limit : ℕ) (l : Listing)
    (hmem : l ∈ (getListings catalog (some filters) page limit).data) :
    l ∈ catalog ∧
    (∀ c, filters.category = some c → l.category = c) ∧
    (∀ v, filters.minPrice = some v → v ≠ 0 → v ≤ l.price) ∧
    (∀ v, filters.maxPrice = some v → v ≠ 0 → l.price ≤ v) ∧
    (∀ v, filters.minRating = some v → v ≠ 0 → v ≤ l.rating) ∧
    (∀ loc, filters.location = some loc →
      calculateDistance (loc.lat : ℝ) (loc.lng : ℝ)
          (l.location.lat : ℝ) (l.location.lng : ℝ) ≤ (loc.radius : ℝ)) := by
  have hf : l ∈ applyFilters catalog filters :=
    List.mem_of_mem_drop (List.mem_of_mem_take hmem)
  exact mem_applyFilters catalog filters l hf

/-- C2 witness: with `category = restaurant` and `minPrice = 50`
specified, the returned listing `wl0` is in the catalog and satisfies the
category and price predicates. -/
theorem getListings_filters_sound_witness :
    wl0 ∈ (getListings [wl0]
        (some { category := some .restaurant, minPrice := some 50 }) 1 10).data ∧
    wl0 ∈ [wl0] :=
  ⟨by decide,
   (getListings_filters_sound [wl0]
     { category := some .restaurant, minPrice := some 50 } 1 10 wl0
     (by decide)).1⟩

/-- C2 counterexample: with `maxPrice = 0` specified, the listing `wl0`
of price `100` is still returned — the JavaScript truthiness guard skips
the `0` bound — so the returned page is not a subset satisfying the
specified `price ≤ maxPrice` predicate. -/
theorem getListings_filters_claim_false :
    wl0 ∈ (getListings [wl0] (some { maxPrice := some 0 }) 1 10).data ∧
    ¬wl0.price ≤ (0 : ℚ) := by
  refine ⟨by decide, ?_⟩
  decide

/-! ### Pagination -/

/-- C3: for `page ≥ 1` and `limit ≥ 1`, `getListings` returns the slice
`[(page-1)*limit, page*limit)` of the filtered list, reports the filtered
count as `total`, sets `hasMore` exactly when `page*limit` is below the
filtered count, and on a page past the end returns the empty slice with
`hasMore = false`. -/
theorem getListings_pagination (catalog : List Listing)
    (filters : Option ListingFilters) (page limit : ℕ)
    (hp : 1 ≤ page) (_hl : 1 ≤ limit) :
    (getListings catalog filters page limit).data =
      ((filteredOf catalog filters).drop ((page - 1) * limit)).take limit ∧
    (getListings catalog filters page limit).total =
      (filteredOf catalog filters).length ∧
    ((getListings catalog filters page limit).hasMore = true ↔
      page * limit < (filteredOf catalog filters).length) ∧
    ((filteredOf catalog filters).length ≤ (page - 1) * limit →
      (getListings catalog filters page limit).data = [] ∧
      (getListings catalog filters page limit).hasMore = false) := by
  have hmul : (page - 1) * limit + limit = page * limit := by
    have h1 : page - 1 + 1 = page := Nat.succ_pred_eq_of_pos hp
    rw [← h1, Nat.succ_mul, h1]
  have hdata : (getListings catalog filters page limit).data =
      ((filteredOf catalog filters).drop ((page - 1) * limit)).take limit := rfl
  have hmore : (getListings catalog filters page limit).hasMore =
      decide ((page - 1) * limit + limit <
        (filteredOf catalog filters).length) := rfl
  refine ⟨hdata, rfl, ?_, ?_⟩
  · rw [hmore, hmul, decide_eq_true_iff]
  · intro hle
    constructor
    · rw [hdata, List.drop_eq_nil_of_le hle, List.take_nil]
    · rw [hmore]
      exact decide_eq_false
        (Nat.not_lt.mpr (le_trans hle (Nat.le_add_right _ _)))

/-- C3 witness: on a one-listing catalog with no filters, page 2 of size 1
is past the end: empty data, `total = 1`, `hasMore = false`. -/
theorem getListings_pagination_witness :
    (getListings [wl0] none 2 1).total = (filteredOf [wl0] none).length ∧
    (getListings [wl0] none 2 1).data = [] ∧
    (getListings [wl0] none 2 1).hasMore = false :=
  ⟨(getListings_pagination [wl0] none 2 1 (by decide) (by decide)).2.1,
   (getListings_pagination [wl0] none 2 1 (by decide) (by decide)).2.2.2
     (by decide)⟩

/-- Concatenating the `N` successive `k`-sized chunks of a list rebuilds
it, provided `N * k` covers its length. -/
theorem join_chunks {α : Type} (k : ℕ) : ∀ (N : ℕ) (l : List α),
    l.length ≤ N * k →
    ((List.range N).map (fun i => (l.drop (i * k)).take k)).flatten = l := by
  intro N
  induction N with
  | zero =>
    intro l h
    have hnil : l = [] :=
      List.eq_nil_of_length_eq_zero (Nat.le_zero.mp (by simpa using h))
    simp [hnil]
  | succ n ih =>
    intro l h
    rw [List.range_succ_eq_map, List.map_cons, List.map_map]
    have hmap : (List.range n).map
        ((fun i => (l.drop (i * k)).take k) ∘ Nat.succ) =
        (List.range n).map (fun i => ((l.drop k).drop (i * k)).take k) := by
      refine List.map_congr_left (fun i _ => ?_)
      simp only [Function.comp_apply]
      rw [Nat.succ_mul, Nat.add_comm, ← List.drop_drop]
    have hlen : (l.drop k).length ≤ n * k := by
      rw [List.length_drop]
      rw [Nat.succ_mul] at h
      exact Nat.sub_le_iff_le_add.mpr h
    rw [hmap, List.flatten_cons, ih (l.drop k) hlen]
    simp [List.take_append_drop]

/-- The ceiling `(n + k - 1) / k` of pages of size `k` covers `n` items. -/
theorem length_le_ceil_mul (n k : ℕ) (hk : 1 ≤ k) :
    n ≤ ((n + k - 1) / k) * k := by
  have h := Nat.div_add_mod (n + k - 1) k
  have hm : (n + k - 1) % k < k := Nat.mod_lt _ (by omega)
  rw [Nat.mul_comm]
  have key : ∀ A : ℕ, A + (n + k - 1) % k = n + k - 1 →
      (n + k - 1) % k < k → 1 ≤ k → n ≤ A := by
    intro A h1 h2 h3
    omega
  exact key (k * ((n + k - 1) / k)) h hm hk

/-- C8: with `pageSize = k ≥ 1` and `N = ⌈filtered count / k⌉`,
concatenating the data arrays of pages `1..N` of `getListings` over an
unchanging catalog rebuilds the filtered list exactly — every filtered
item once, in catalog order. -/
theorem getListings_concat_pages (catalog : List Listing)
    (filters : Option ListingFilters) (k N : ℕ) (hk : 1 ≤ k)
    (hN : N = ((filteredOf catalog filters).length + k - 1) / k) :
    ((List.range N).map
        (fun i => (getListings catalog filters (i + 1) k).data)).flatten =
      filteredOf catalog filters := by
  have hmap : (List.range N).map
      (fun i => (getListings catalog filters (i + 1) k).data) =
      (List.range N).map
        (fun i => ((filteredOf catalog filters).drop (i * k)).take k) :=
    List.map_congr_left (fun i _ => rfl)
  rw [hmap]
  refine join_chunks k N _ ?_
  rw [hN]
  exact length_le_ceil_mul _ k hk

/-- C8 witness: one listing, page size 2, `N = ⌈1/2⌉ = 1`: the single
page rebuilds the filtered list. -/
theorem getListings_concat_pages_witness :
    1 = ((filteredOf [wl0] none).length + 2 - 1) / 2 ∧
    ((List.range 1).map
        (fun i => (getListings [wl0] none (i + 1) 2).data)).flatten =
      filteredOf [wl0] none :=
  ⟨by decide,
   getListings_concat_pages [wl0] none 2 1 (by decide) (by decide)⟩
